import Mathlib

/-!
# QuizApp: the quiz session engine

A shallow embedding of `questions/localQuestions.js`, `utils/avoidSameSet.js`,
the Mongoose schemas of `models/` and the three game routes of `server.js`
(`/api/game/start`, `/api/game/answer`, `/api/game/finish`), followed by the
properties of the engine.

Conventions of the embedding
* JavaScript strings are Lean strings; the default `Array.prototype.sort`
  order on strings (lexicographic on UTF-16 code units) is spelled out.
* `Math.random()` is a stream of fractions in `[0, 1)`, threaded explicitly.
* `new Date()` and the `_id` Mongo assigns to a new document are inputs of
  the route that needs them.
* A collection is the list of its documents; `findOne` returns the first
  document with the given `_id`, `save` replaces the documents with the
  `_id` of the saved one, `create` validates against the schema and appends.
* `GameSession.findById` receives the raw `gameSessionId` of the request body:
  it casts it to an ObjectId first, and a value that is not one makes it throw
  (`asyncHandler` hands the error to the error middleware: a 500).
* The `auth` middleware has already run: routes take the authenticated `uid`.
-/

namespace QuizApp

/-! ## Strings and the default sort order -/

/-- UTF-16 code units of one character (a surrogate pair above the BMP). -/
def utf16Units (c : Char) : List Nat :=
  if c.toNat < 0x10000 then [c.toNat]
  else [0xD800 + (c.toNat - 0x10000) / 0x400, 0xDC00 + (c.toNat - 0x10000) % 0x400]

/-- UTF-16 code units of a list of characters. -/
def codeUnitsOf : List Char → List Nat
  | [] => []
  | c :: cs => utf16Units c ++ codeUnitsOf cs

/-- UTF-16 code units of a string: what the JavaScript string consists of. -/
def codeUnits (s : String) : List Nat := codeUnitsOf s.data

/-- Lexicographic `≤` on code-unit sequences, a proper initial segment being smaller. -/
def unitsLe : List Nat → List Nat → Bool
  | [], _ => true
  | _ :: _, [] => false
  | x :: xs, y :: ys => decide (x < y) || (x == y && unitsLe xs ys)

/-- The order `sort()` without a comparator puts strings in. -/
def JsLe (a b : String) : Prop := unitsLe (codeUnits a) (codeUnits b) = true

instance : DecidableRel JsLe := fun a b => by unfold JsLe; exact inferInstance

/-- Result of `[...a].sort()` on an array of strings: the sorted copy. -/
def jsSort (a : List String) : List String := a.insertionSort JsLe

/-! ## `utils/avoidSameSet.js` -/

/-- The comparison loop of `isSameSet`, `for (i = 0; i < sa.length; i++)`, walking both
arrays in step: `false` at the first `sa[i] !== sb[i]` (an index past the end of `sb`
reads `undefined`, which differs from every string), `true` when `sa` is exhausted. -/
def isSameSetLoop : List String → List String → Bool
  | [], _ => true
  | _ :: _, [] => false
  | x :: sa, y :: sb => if x != y then false else isSameSetLoop sa sb

/-- Function `isSameSet(a, b)`; `none` is an absent (`null`/`undefined`) argument. -/
def isSameSet (a b : Option (List String)) : Bool :=
  match a, b with
  | some a, some b =>
    if a.length != b.length then false
    else
      let sa := jsSort a
      let sb := jsSort b
      isSameSetLoop sa sb
  | _, _ => false

/-! ## `questions/localQuestions.js` -/

/-- One record of `data/questions.json`. -/
structure RawQuestion where
  question : String
  A : String
  B : String
  C : String
  D : String
  answer : String
  deriving DecidableEq, Repr

/-- One entry of a question's `options` array. -/
structure OptionEntry where
  key : String
  text : String
  deriving DecidableEq, Repr

/-- A normalized question, an element of `LOCAL_QUESTIONS`. -/
structure Question where
  id : String
  question : String
  options : List OptionEntry
  answer : String
  deriving DecidableEq, Repr, Inhabited

/-- The normalization lambda of `QUESTIONS.map((q, idx) => ...)`. -/
def normalize (idx : Nat) (q : RawQuestion) : Question :=
  { id := toString idx
    question := q.question
    options := [⟨"A", q.A⟩, ⟨"B", q.B⟩, ⟨"C", q.C⟩, ⟨"D", q.D⟩]
    answer := q.answer }

/-- The pool `LOCAL_QUESTIONS`, for the parsed catalog `QUESTIONS`. -/
def LOCAL_QUESTIONS (QUESTIONS : List RawQuestion) : List Question :=
  QUESTIONS.mapIdx normalize

/-- A value returned by `Math.random()`: the fraction `num / den`, in `[0, 1)`. Every
value `Math.floor(Math.random() * m)` can take, `0` to `m - 1`, comes from such a fraction. -/
structure UnitFraction where
  num : Nat
  den : Nat
  lt : num < den

/-- The random source: the values successive calls of `Math.random()` return,
and the number of calls made so far. -/
structure Rng where
  stream : Nat → UnitFraction
  calls : Nat

/-- One call of `Math.random()`. -/
def mathRandom (rng : Rng) : UnitFraction × Rng :=
  (rng.stream rng.calls, { rng with calls := rng.calls + 1 })

/-- Value of `Math.floor(r * m)`. -/
def floorMul (r : UnitFraction) (m : Nat) : Nat := r.num * m / r.den

/-- The swap `[indices[i], indices[j]] = [indices[j], indices[i]]`, both indices in range
(the loop never leaves the range, by `floorMul_lt`; out of range the array is left alone
here). -/
def swapAt (indices : List Nat) (i j : Nat) : List Nat :=
  match indices[i]?, indices[j]? with
  | some a, some b => (indices.set i b).set j a
  | _, _ => indices

/-- The Fisher–Yates loop `for (let i = start; i > 0; i--)` of `sampleQuestions`. -/
def shuffleLoop : Nat → List Nat → Rng → List Nat × Rng
  | 0, indices, rng => (indices, rng)
  | k + 1, indices, rng =>
    let i := k + 1
    let (r, rng1) := mathRandom rng
    let j := floorMul r (i + 1)
    shuffleLoop k (swapAt indices i j) rng1

/-- Result of `xs.slice(0, end)` for an integer `end`. -/
def sliceFromZero {α : Type} (xs : List α) (endIdx : Int) : List α :=
  if endIdx < 0 then xs.take ((xs.length : Int) + endIdx).toNat
  else xs.take endIdx.toNat

/-- Function `sampleQuestions(n)` over the pool of the catalog `QUESTIONS`, threading
the random source. `LOCAL_QUESTIONS[i]` is read with a default: every index the
shuffle yields is in range (`shuffleLoop_perm`). -/
def sampleQuestions (QUESTIONS : List RawQuestion) (n : Int) (rng : Rng) :
    List Question × Rng :=
  let pool := LOCAL_QUESTIONS QUESTIONS
  let indices := List.range pool.length
  let (shuffled, rng1) := shuffleLoop (indices.length - 1) indices rng
  ((sliceFromZero shuffled n).map (fun i => pool[i]?.getD default), rng1)

/-- Function `sampleNonRepeatingSet(sampleFn, n, lastSetIds)`: the loop with `attempts`
iterations left, then the fallback draw. The sampler `sampleFn` is a call with effects
on a state `σ` (for `sampleQuestions`, the random source). -/
def sampleNonRepeatingSetLoop {σ : Type} (sampleFn : Int → σ → List Question × σ)
    (n : Int) (lastSetIds : Option (List String)) : Nat → σ → List Question × σ
  | 0, s => sampleFn n s
  | attempts + 1, s =>
    let (qs, s1) := sampleFn n s
    let ids := qs.map (fun q => q.id)
    if !isSameSet (some ids) lastSetIds then (qs, s1)
    else sampleNonRepeatingSetLoop sampleFn n lastSetIds attempts s1

/-- Function `sampleNonRepeatingSet(sampleFn, n, lastSetIds)`: ten attempts. -/
def sampleNonRepeatingSet {σ : Type} (sampleFn : Int → σ → List Question × σ)
    (n : Int) (lastSetIds : Option (List String)) (s : σ) : List Question × σ :=
  sampleNonRepeatingSetLoop sampleFn n lastSetIds 10 s

/-! ## `models/GameSession.js`, `models/User.js` -/

/-- The enum `['local', 'opentdb']` of the `source` paths. -/
inductive Source where
  | local
  | opentdb
  deriving DecidableEq, Repr

/-- The enum validator of the `source` paths: the value a string is stored as, if any. -/
def Source.ofString? (s : String) : Option Source :=
  if s = "local" then some Source.local
  else if s = "opentdb" then some Source.opentdb
  else none

/-- Documents of `AnswerSchema`. -/
structure Answer where
  questionId : String
  correctAnswer : String
  selectedAnswer : String
  isCorrect : Bool
  deriving DecidableEq, Repr

/-- Documents of `GameSessionSchema`; an unset path is `none`. -/
structure GameSession where
  _id : Nat
  userId : Nat
  source : Source
  questionIds : List String
  answers : List Answer
  score : Option Nat
  numQuestions : Int
  startedAt : Int
  finishedAt : Option Int
  durationMs : Option Int
  deriving DecidableEq, Repr

/-- Documents of `PlayedSetSchema`. -/
structure PlayedSet where
  source : Source
  questionIds : List String
  playedAt : Int
  deriving DecidableEq, Repr

/-- Documents of `UserSchema`. -/
structure User where
  _id : Nat
  email : String
  passwordHash : String
  displayName : String
  recentPlayedSets : List PlayedSet
  createdAt : Int
  deriving DecidableEq, Repr

/-- The two collections of the database. -/
structure Db where
  users : List User
  sessions : List GameSession
  deriving DecidableEq, Repr

/-- An error response: `res.status(status).json(...)` carrying an `error` message. -/
structure HttpError where
  status : Nat
  error : String
  deriving DecidableEq, Repr

deriving instance DecidableEq for Except

/-- The `gameSessionId` of a request body, as the cast to ObjectId of `findById` takes it:
missing (`undefined` or `null`), the ObjectId it denotes, or a value that denotes none
(such as the string "99"). -/
inductive IdValue where
  | missing
  | objectId (id : Nat)
  | malformed (raw : String)
  deriving DecidableEq, Repr

/-- Query `User.findById(id)` for the ObjectId of a verified token (`req.uid`) or of a
stored document (`session.userId`). -/
def User.findById (db : Db) (id : Nat) : Option User :=
  db.users.find? (fun u => u._id == id)

/-- Query `GameSession.findOne({ _id: id })` for an ObjectId: the stored session with
that `_id`, if any. -/
def GameSession.findOne (db : Db) (id : Nat) : Option GameSession :=
  db.sessions.find? (fun d => d._id == id)

/-- Query `GameSession.findById(id)` on the raw value of the request: a missing id is looked
up as `_id: null` and finds nothing, an ObjectId is looked up in the collection, and any
other value fails the cast to ObjectId: the query rejects with a CastError, which
`asyncHandler` passes to the error middleware (`res.status(500)`). -/
def GameSession.findById (db : Db) (id : IdValue) : Except HttpError (Option GameSession) :=
  match id with
  | .missing => .ok none
  | .objectId oid => .ok (GameSession.findOne db oid)
  | .malformed _ => .error ⟨500, "Cast to ObjectId failed"⟩

/-- Effect of `session.save()` for a document read from the collection. -/
def GameSession.save (db : Db) (doc : GameSession) : Db :=
  { db with sessions := db.sessions.map (fun d => if d._id == doc._id then doc else d) }

/-- Effect of `user.save()` for a document read from the collection. -/
def User.save (db : Db) (doc : User) : Db :=
  { db with users := db.users.map (fun u => if u._id == doc._id then doc else u) }

/-- Call `GameSession.create(...)` as made by `/api/game/start`: the `source` string is
validated against the enum (a rejected document is thrown, which `asyncHandler` and the
error middleware turn into a 500), `startedAt` takes its default `Date.now`, and the
document is inserted under the `_id` it is assigned. -/
def GameSession.create (db : Db) (newId : Nat) (now : Int) (userId : Nat) (source : String)
    (questionIds : List String) (numQuestions : Int) : Except HttpError (GameSession × Db) :=
  match Source.ofString? source with
  | none => .error ⟨500, "GameSession validation failed"⟩
  | some src =>
    let doc : GameSession :=
      { _id := newId, userId := userId, source := src, questionIds := questionIds,
        answers := [], score := none, numQuestions := numQuestions, startedAt := now,
        finishedAt := none, durationMs := none }
    .ok (doc, { db with sessions := db.sessions ++ [doc] })

/-! ## `server.js`: the game routes -/

/-- Body of the response of `/api/game/start`. -/
structure StartReply where
  gameSessionId : Nat
  questions : List Question
  deriving DecidableEq, Repr

/-- Body of the response of `/api/game/finish`. -/
structure FinishReply where
  score : Nat
  numQuestions : Int
  deriving DecidableEq, Repr

/-- Route `POST /api/game/start` for the authenticated user `uid`; `none` is a field
missing from the request body. Returns the response, the database and the random source. -/
def gameStart (QUESTIONS : List RawQuestion) (db : Db) (rng : Rng) (uid : Nat)
    (numQuestionsField : Option Int) (sourceField : Option String) (newId : Nat) (now : Int) :
    Except HttpError StartReply × Db × Rng :=
  let numQuestions := numQuestionsField.getD 10
  let source := sourceField.getD "local"
  match User.findById db uid with
  | none => (.error ⟨404, "user not found"⟩, db, rng)
  | some user =>
    if source = "local" then
      let lastSet := user.recentPlayedSets.find? (fun s => s.source == Source.local)
      let lastIds := lastSet.map (fun s => s.questionIds)
      let (questions, rng1) :=
        sampleNonRepeatingSet (sampleQuestions QUESTIONS) numQuestions lastIds rng
      match GameSession.create db newId now user._id source
          (questions.map (fun q => q.id)) numQuestions with
      | .error e => (.error e, db, rng1)
      | .ok (session, db1) => (.ok ⟨session._id, questions⟩, db1, rng1)
    else if source = "opentdb" then
      (.error ⟨501, "OpenTDB not implemented yet"⟩, db, rng)
    else
      let questions : List Question := []
      match GameSession.create db newId now user._id source
          (questions.map (fun q => q.id)) numQuestions with
      | .error e => (.error e, db, rng)
      | .ok (session, db1) => (.ok ⟨session._id, questions⟩, db1, rng)

/-- Route `POST /api/game/answer`. Returns the response (`isCorrect`) and the database. -/
def gameAnswer (QUESTIONS : List RawQuestion) (db : Db) (gameSessionId : IdValue)
    (questionId selectedAnswer : String) : Except HttpError Bool × Db :=
  match GameSession.findById db gameSessionId with
  | .error e => (.error e, db)
  | .ok none => (.error ⟨404, "session not found"⟩, db)
  | .ok (some session) =>
    match (LOCAL_QUESTIONS QUESTIONS).find? (fun q => q.id == questionId) with
    | none => (.error ⟨404, "question not found"⟩, db)
    | some q =>
      let isCorrect := selectedAnswer == q.answer
      let session1 := { session with
        answers := session.answers ++
          [{ questionId := questionId, correctAnswer := q.answer,
             selectedAnswer := selectedAnswer, isCorrect := isCorrect }] }
      (.ok isCorrect, GameSession.save db session1)

/-- Route `POST /api/game/finish`; `now` and `now2` are the two readings `new Date()`
(the finish time, then the `playedAt` of the record). -/
def gameFinish (db : Db) (gameSessionId : IdValue) (now now2 : Int) :
    Except HttpError FinishReply × Db :=
  match GameSession.findById db gameSessionId with
  | .error e => (.error e, db)
  | .ok none => (.error ⟨404, "session not found"⟩, db)
  | .ok (some session) =>
    let score := (session.answers.filter (fun a => a.isCorrect)).length
    let session1 := { session with
      score := some score, finishedAt := some now, durationMs := some (now - session.startedAt) }
    let db1 := GameSession.save db session1
    let db2 :=
      match User.findById db1 session1.userId with
      | some user =>
        let setRecord : PlayedSet :=
          { source := session1.source, questionIds := session1.questionIds, playedAt := now2 }
        User.save db1 { user with
          recentPlayedSets := (setRecord :: user.recentPlayedSets).take 5 }
      | none => db1
    (.ok ⟨score, session1.numQuestions⟩, db2)

/-! ## Runs and sample data used in the statements -/

/-- State of the sampler after `k` calls `sampleFn(n)`, starting from `s`. -/
def stateAfter {σ : Type} (sampleFn : Int → σ → List Question × σ) (n : Int) (s : σ) :
    Nat → σ
  | 0 => s
  | k + 1 => (sampleFn n (stateAfter sampleFn n s k)).2

/-- The draw number `k` (counted from 0): what call `k` of `sampleFn(n)` returns. -/
def draw {σ : Type} (sampleFn : Int → σ → List Question × σ) (n : Int) (s : σ) (k : Nat) :
    List Question :=
  (sampleFn n (stateAfter sampleFn n s k)).1

/-- One step of reading a decimal numeral back: the value so far, then the next digit. -/
def digitVal (a : Nat) (c : Char) : Nat := 10 * a + (c.toNat - 48)

/-- The ids of a list of questions, `qs.map(q => q.id)`. -/
def idsOf (qs : List Question) : List String := qs.map (fun q => q.id)

/-- Number of ids in which two id lists differ: those of either list missing from the other. -/
def idDifferences (a b : List String) : Nat :=
  (a.filter (fun x => !b.contains x)).length + (b.filter (fun x => !a.contains x)).length

/-- The record `/api/game/finish` pushes for a session, with its `playedAt`. -/
def playedRecord (session : GameSession) (playedAt : Int) : PlayedSet :=
  { source := session.source, questionIds := session.questionIds, playedAt := playedAt }

/-- A run of finish requests `(gameSessionId, now, now2)`, handled one after the other. -/
def finishAll (db : Db) : List (IdValue × Int × Int) → Db
  | [] => db
  | (gameSessionId, now, now2) :: rest => finishAll (gameFinish db gameSessionId now now2).2 rest

/-- A catalog of two questions. -/
def catalog2 : List RawQuestion :=
  [⟨"q0", "a", "b", "c", "d", "A"⟩, ⟨"q1", "a", "b", "c", "d", "B"⟩]

/-- A catalog of three questions. -/
def catalog3 : List RawQuestion :=
  [⟨"q0", "a", "b", "c", "d", "A"⟩, ⟨"q1", "a", "b", "c", "d", "B"⟩,
   ⟨"q2", "a", "b", "c", "d", "C"⟩]

/-- A random source whose every value is 0. -/
def zeroRng : Rng := ⟨fun _ => ⟨0, 1, by decide⟩, 0⟩

/-- A user with an empty history. -/
def userA : User :=
  { _id := 1, email := "ann@example.org", passwordHash := "h", displayName := "Ann",
    recentPlayedSets := [], createdAt := 0 }

/-- An active session of `userA` with one correct and one wrong answer. -/
def sessionA : GameSession :=
  { _id := 7, userId := 1, source := Source.local, questionIds := ["0", "1"],
    answers := [⟨"0", "A", "A", true⟩, ⟨"1", "B", "C", false⟩], score := none,
    numQuestions := 2, startedAt := 1000, finishedAt := none, durationMs := none }

/-- A finished session of `userA`: no answers, score 0. -/
def sessionF : GameSession :=
  { _id := 8, userId := 1, source := Source.local, questionIds := ["0", "1"],
    answers := [], score := some 0, numQuestions := 2, startedAt := 1000,
    finishedAt := some 2000, durationMs := some 1000 }

/-- A database holding `userA` and the two sessions. -/
def dbA : Db := { users := [userA], sessions := [sessionA, sessionF] }

/-! # Properties -/

/-! ## Decimal rendering of indices -/

theorem digitChar_val (k : Nat) (h : k < 10) : (Nat.digitChar k).toNat - 48 = k := by
  interval_cases k <;> rfl

theorem foldl_toDigitsCore (fuel : Nat) : ∀ (n : Nat) (ds : List Char), n < fuel →
    (Nat.toDigitsCore 10 fuel n ds).foldl digitVal 0 = ds.foldl digitVal n := by
  induction fuel with
  | zero => intro n ds h; omega
  | succ fuel ih =>
    intro n ds h
    unfold Nat.toDigitsCore
    by_cases h0 : n / 10 = 0
    · simp only [h0, if_true, List.foldl_cons, digitVal, digitChar_val (n % 10) (Nat.mod_lt _ (by decide))]
      congr 1; omega
    · simp only [h0, if_false]
      rw [ih (n / 10) _ (by omega)]
      simp only [List.foldl_cons, digitVal, digitChar_val (n % 10) (Nat.mod_lt _ (by decide))]
      congr 1; omega

theorem toString_nat_injective {a b : Nat} (h : toString a = toString b) : a = b := by
  have h1 : Nat.toDigits 10 a = Nat.toDigits 10 b := by
    have := congrArg String.data h
    simpa [toString, Nat.repr, List.asString] using this
  have h2 := congrArg (List.foldl digitVal 0) h1
  unfold Nat.toDigits at h2
  rw [foldl_toDigitsCore _ _ _ (Nat.lt_succ_self a), foldl_toDigitsCore _ _ _ (Nat.lt_succ_self b)] at h2
  simpa using h2


/-! ## The sort order and `isSameSet` -/

theorem char_valid (c : Char) : c.toNat < 0xD800 ∨ (0xDFFF < c.toNat ∧ c.toNat < 0x110000) :=
  c.valid

theorem char_eq_of_toNat {c d : Char} (h : c.toNat = d.toNat) : c = d := by
  rw [← Char.ofNat_toNat c, ← Char.ofNat_toNat d, h]

theorem codeUnitsOf_injective : ∀ (a b : List Char), codeUnitsOf a = codeUnitsOf b → a = b := by
  intro a
  induction a with
  | nil =>
    intro b h
    cases b with
    | nil => rfl
    | cons d ds =>
      exfalso
      simp only [codeUnitsOf, utf16Units] at h
      split at h <;> simp at h
  | cons c cs ih =>
    intro b h
    cases b with
    | nil =>
      exfalso
      simp only [codeUnitsOf, utf16Units] at h
      split at h <;> simp at h
    | cons d ds =>
      have hc := char_valid c
      have hd := char_valid d
      simp only [codeUnitsOf, utf16Units] at h
      split at h <;> split at h <;>
        simp only [List.cons_append, List.nil_append, List.cons.injEq] at h
      · rw [char_eq_of_toNat h.1, ih ds h.2]
      · omega
      · omega
      · have : c.toNat = d.toNat := by omega
        rw [char_eq_of_toNat this, ih ds h.2.2]

theorem codeUnits_injective {a b : String} (h : codeUnits a = codeUnits b) : a = b := by
  cases a; cases b
  simp only [codeUnits] at h
  rw [codeUnitsOf_injective _ _ h]

theorem unitsLe_total : ∀ (a b : List Nat), unitsLe a b = true ∨ unitsLe b a = true := by
  intro a
  induction a with
  | nil => intro b; simp [unitsLe]
  | cons x xs ih =>
    intro b
    cases b with
    | nil => simp [unitsLe]
    | cons y ys =>
      simp only [unitsLe, Bool.or_eq_true, Bool.and_eq_true, decide_eq_true_eq, beq_iff_eq]
      rcases lt_trichotomy x y with h | h | h
      · exact Or.inl (Or.inl h)
      · rcases ih ys with h1 | h1
        · exact Or.inl (Or.inr ⟨h, h1⟩)
        · exact Or.inr (Or.inr ⟨h.symm, h1⟩)
      · exact Or.inr (Or.inl h)

theorem unitsLe_trans : ∀ (a b c : List Nat), unitsLe a b = true → unitsLe b c = true →
    unitsLe a c = true := by
  intro a
  induction a with
  | nil => intro b c _ _; simp [unitsLe]
  | cons x xs ih =>
    intro b c hab hbc
    cases b with
    | nil => simp [unitsLe] at hab
    | cons y ys =>
      cases c with
      | nil => simp [unitsLe] at hbc
      | cons z zs =>
        simp only [unitsLe, Bool.or_eq_true, Bool.and_eq_true, decide_eq_true_eq,
          beq_iff_eq] at hab hbc ⊢
        rcases hab with h1 | ⟨h1, h2⟩ <;> rcases hbc with h3 | ⟨h3, h4⟩
        · exact Or.inl (by omega)
        · exact Or.inl (by omega)
        · exact Or.inl (by omega)
        · exact Or.inr ⟨by omega, ih ys zs h2 h4⟩

theorem unitsLe_antisymm : ∀ (a b : List Nat), unitsLe a b = true → unitsLe b a = true →
    a = b := by
  intro a
  induction a with
  | nil =>
    intro b _ hba
    cases b with
    | nil => rfl
    | cons y ys => simp [unitsLe] at hba
  | cons x xs ih =>
    intro b hab hba
    cases b with
    | nil => simp [unitsLe] at hab
    | cons y ys =>
      simp only [unitsLe, Bool.or_eq_true, Bool.and_eq_true, decide_eq_true_eq,
        beq_iff_eq] at hab hba
      rcases hab with h1 | ⟨h1, h2⟩ <;> rcases hba with h3 | ⟨h3, h4⟩
      · omega
      · omega
      · omega
      · rw [h1, ih ys h2 h4]

theorem jsLe_total : IsTotal String JsLe :=
  ⟨fun a b => unitsLe_total (codeUnits a) (codeUnits b)⟩

theorem jsLe_trans : IsTrans String JsLe :=
  ⟨fun _ _ _ h1 h2 => unitsLe_trans _ _ _ h1 h2⟩

theorem jsLe_antisymm : IsAntisymm String JsLe :=
  ⟨fun _ _ h1 h2 => codeUnits_injective (unitsLe_antisymm _ _ h1 h2)⟩

theorem jsSort_eq_iff_perm (a b : List String) : jsSort a = jsSort b ↔ a.Perm b := by
  constructor
  · intro h
    have h1 : List.insertionSort JsLe a = List.insertionSort JsLe b := h
    have h2 := List.perm_insertionSort JsLe a
    rw [h1] at h2
    exact h2.symm.trans (List.perm_insertionSort JsLe b)
  · intro h
    haveI := jsLe_total
    haveI := jsLe_trans
    haveI := jsLe_antisymm
    exact List.eq_of_perm_of_sorted
      (((List.perm_insertionSort JsLe a).trans h).trans (List.perm_insertionSort JsLe b).symm)
      (List.sorted_insertionSort JsLe a) (List.sorted_insertionSort JsLe b)

theorem isSameSetLoop_self : ∀ (sa : List String), isSameSetLoop sa sa = true := by
  intro sa
  induction sa with
  | nil => rfl
  | cons x xs ih => simp [isSameSetLoop, ih]

theorem isSameSetLoop_eq : ∀ (sa sb : List String), sa.length = sb.length →
    isSameSetLoop sa sb = true → sa = sb := by
  intro sa
  induction sa with
  | nil => intro sb hl _; cases sb with
    | nil => rfl
    | cons y ys => simp at hl
  | cons x xs ih =>
    intro sb hl h
    cases sb with
    | nil => simp at hl
    | cons y ys =>
      simp only [isSameSetLoop] at h
      by_cases hxy : x = y
      · subst hxy
        simp only [bne_self_eq_false, Bool.false_eq_true, if_false] at h
        rw [ih ys (by simpa using hl) h]
      · simp [hxy] at h

theorem isSameSet_some_iff (a b : List String) :
    isSameSet (some a) (some b) = true ↔ a.Perm b := by
  unfold isSameSet
  by_cases hl : a.length = b.length
  · simp only [hl, bne_self_eq_false, Bool.false_eq_true, if_false]
    constructor
    · intro h
      exact (jsSort_eq_iff_perm a b).1
        (isSameSetLoop_eq _ _ (by simp [jsSort, List.length_insertionSort, hl]) h)
    · intro h
      rw [(jsSort_eq_iff_perm a b).2 h]
      exact isSameSetLoop_self _
  · have : (a.length != b.length) = true := by simpa using hl
    simp only [this, if_true]
    constructor
    · intro h; cases h
    · intro h; exact absurd h.length_eq hl

/-- Claim C2: `isSameSet` is symmetric; on two present id lists it is true exactly when
they have the same length and are permutations of each other (the same multiset of ids);
so `isSameSet([x, y], [y, x])` is true and `isSameSet([x, y], [x])` is false; and it is
false as soon as one argument is absent. -/
theorem isSameSet_symmetric_size_order :
    (∀ a b : Option (List String), isSameSet a b = isSameSet b a) ∧
    (∀ a b : List String,
      isSameSet (some a) (some b) = true ↔ a.length = b.length ∧ a.Perm b) ∧
    (∀ x y : String, isSameSet (some [x, y]) (some [y, x]) = true ∧
      isSameSet (some [x, y]) (some [x]) = false) ∧
    (∀ a : Option (List String), isSameSet none a = false ∧ isSameSet a none = false) := by
  refine ⟨?_, ?_, ?_, ?_⟩
  · intro a b
    cases a with
    | none => cases b <;> rfl
    | some a =>
      cases b with
      | none => rfl
      | some b =>
        rw [Bool.eq_iff_iff, isSameSet_some_iff, isSameSet_some_iff]
        exact ⟨List.Perm.symm, List.Perm.symm⟩
  · intro a b
    rw [isSameSet_some_iff]
    exact ⟨fun h => ⟨h.length_eq, h⟩, fun h => h.2⟩
  · intro x y
    refine ⟨(isSameSet_some_iff _ _).2 (List.Perm.swap _ _ _), ?_⟩
    rw [← Bool.not_eq_true, isSameSet_some_iff]
    intro h
    simpa using h.length_eq
  · intro a
    cases a <;> exact ⟨rfl, rfl⟩


/-! ## The sampler -/

theorem swapAt_perm (xs : List Nat) (i j : Nat) : (swapAt xs i j).Perm xs := by
  unfold swapAt
  split
  · rename_i a b ha hb
    obtain ⟨hi, hia⟩ := List.getElem?_eq_some.1 ha
    obtain ⟨hj, hjb⟩ := List.getElem?_eq_some.1 hb
    rw [List.perm_iff_count]
    intro c
    have hj1 : j < (xs.set i b).length := by simpa using hj
    rw [List.count_set _ _ _ _ hj1, List.count_set _ _ _ _ hi]
    have e1 : (xs.set i b)[j] = b := by
      rw [List.getElem_set]
      split
      · rfl
      · exact hjb
    rw [e1, hia]
    have hc : (if (a == c) = true then 1 else 0) ≤ List.count c xs := by
      split
      · rename_i hac
        have : a = c := by simpa using hac
        subst this
        exact List.count_pos_iff.2 (hia ▸ List.getElem_mem hi)
      · exact Nat.zero_le _
    omega
  · exact List.Perm.refl _

/-- The index `j` drawn at step `i` of the shuffle is at most `i`. -/
theorem floorMul_lt (r : UnitFraction) (m : Nat) (hm : 0 < m) : floorMul r m < m := by
  unfold floorMul
  have hden : 0 < r.den := Nat.lt_of_le_of_lt (Nat.zero_le _) r.lt
  rw [Nat.div_lt_iff_lt_mul hden]
  exact Nat.mul_lt_mul_of_pos_left r.lt hm |> fun h => by rwa [Nat.mul_comm m r.num] at h

/-- In range, `swapAt` is the exchange of the two entries. -/
theorem swapAt_in_range (xs : List Nat) (i j : Nat) (hi : i < xs.length) (hj : j < xs.length) :
    swapAt xs i j = (xs.set i xs[j]).set j xs[i] := by
  unfold swapAt
  rw [List.getElem?_eq_getElem hi, List.getElem?_eq_getElem hj]

theorem shuffleLoop_perm (k : Nat) : ∀ (indices : List Nat) (rng : Rng),
    (shuffleLoop k indices rng).1.Perm indices := by
  induction k with
  | zero => intro indices rng; exact List.Perm.refl _
  | succ k ih =>
    intro indices rng
    simp only [shuffleLoop]
    exact (ih _ _).trans (swapAt_perm _ _ _)

theorem sampleQuestions_fst (QUESTIONS : List RawQuestion) (n : Int) (rng : Rng) :
    (sampleQuestions QUESTIONS n rng).1 =
      (sliceFromZero (shuffleLoop ((List.range (LOCAL_QUESTIONS QUESTIONS).length).length - 1)
        (List.range (LOCAL_QUESTIONS QUESTIONS).length) rng).1 n).map
        (fun i => (LOCAL_QUESTIONS QUESTIONS)[i]?.getD default) := rfl

theorem sliceFromZero_sublist {α : Type} (xs : List α) (n : Int) :
    (sliceFromZero xs n).Sublist xs := by
  unfold sliceFromZero
  split <;> exact List.take_sublist _ _

theorem sliceFromZero_length {α : Type} (xs : List α) (n : Int) (h0 : 0 ≤ n)
    (hn : n ≤ xs.length) : ((sliceFromZero xs n).length : Int) = n := by
  unfold sliceFromZero
  rw [if_neg (by omega), List.length_take]
  omega

theorem pool_getElem? (QUESTIONS : List RawQuestion) (i : Nat) :
    (LOCAL_QUESTIONS QUESTIONS)[i]? = (QUESTIONS[i]?).map (normalize i) := by
  simp [LOCAL_QUESTIONS]

theorem pool_length (QUESTIONS : List RawQuestion) :
    (LOCAL_QUESTIONS QUESTIONS).length = QUESTIONS.length := by
  simp [LOCAL_QUESTIONS]

/-- Every index of a sample is a pool index, and the question read there carries it as id. -/
theorem pool_read (QUESTIONS : List RawQuestion) (i : Nat)
    (hi : i < (LOCAL_QUESTIONS QUESTIONS).length) :
    (LOCAL_QUESTIONS QUESTIONS)[i]? = some ((LOCAL_QUESTIONS QUESTIONS)[i]?.getD default) ∧
    ((LOCAL_QUESTIONS QUESTIONS)[i]?.getD default).id = toString i := by
  have hi1 : i < QUESTIONS.length := by rwa [pool_length] at hi
  rw [pool_getElem?, List.getElem?_eq_getElem hi1]
  exact ⟨rfl, rfl⟩

theorem sample_indices (QUESTIONS : List RawQuestion) (n : Int) (rng : Rng) :
    ∃ idxs : List Nat, idxs.Nodup ∧ (∀ i ∈ idxs, i < (LOCAL_QUESTIONS QUESTIONS).length) ∧
      (n < 0 ∨ (idxs.length : Int) = min n (LOCAL_QUESTIONS QUESTIONS).length) ∧
      (sampleQuestions QUESTIONS n rng).1 =
        idxs.map (fun i => (LOCAL_QUESTIONS QUESTIONS)[i]?.getD default) := by
  have hp := shuffleLoop_perm ((List.range (LOCAL_QUESTIONS QUESTIONS).length).length - 1)
    (List.range (LOCAL_QUESTIONS QUESTIONS).length) rng
  refine ⟨_, ?_, ?_, ?_, sampleQuestions_fst QUESTIONS n rng⟩
  · exact (sliceFromZero_sublist _ n).nodup (hp.nodup_iff.2 (List.nodup_range _))
  · intro i hi
    have := hp.subset ((sliceFromZero_sublist _ n).subset hi)
    simpa using this
  · by_cases h : n < 0
    · exact Or.inl h
    · right
      unfold sliceFromZero
      rw [if_neg h, List.length_take, hp.length_eq, List.length_range]
      omega

/-- Claim C1: for every catalog, every random source and every `n` with
`0 < n ≤ LOCAL_QUESTIONS.length`, `sampleQuestions(n)` returns exactly `n` questions, each
an element of `LOCAL_QUESTIONS`, with pairwise distinct ids, the id of each being the
stringified index at which the pool holds it. -/
theorem sampleQuestions_distinct (QUESTIONS : List RawQuestion) (rng : Rng) (n : Int)
    (h0 : 0 < n) (hn : n ≤ (LOCAL_QUESTIONS QUESTIONS).length) :
    ((sampleQuestions QUESTIONS n rng).1.length : Int) = n ∧
    (∀ q ∈ (sampleQuestions QUESTIONS n rng).1, q ∈ LOCAL_QUESTIONS QUESTIONS) ∧
    ((sampleQuestions QUESTIONS n rng).1.map (fun q => q.id)).Nodup ∧
    (∀ q ∈ (sampleQuestions QUESTIONS n rng).1, ∃ i : Nat,
      (LOCAL_QUESTIONS QUESTIONS)[i]? = some q ∧ q.id = toString i) := by
  obtain ⟨idxs, hnd, hlt, hlen, heq⟩ := sample_indices QUESTIONS n rng
  rw [heq]
  refine ⟨?_, ?_, ?_, ?_⟩
  · rw [List.length_map]
    rcases hlen with h | h
    · omega
    · rw [h]; omega
  · intro q hq
    obtain ⟨i, hi, rfl⟩ := List.mem_map.1 hq
    exact List.getElem?_mem (pool_read QUESTIONS i (hlt i hi)).1
  · rw [List.map_map]
    have : idxs.map ((fun q : Question => q.id) ∘
        (fun i => (LOCAL_QUESTIONS QUESTIONS)[i]?.getD default)) =
        idxs.map (fun i : Nat => toString i) := by
      apply List.map_congr_left
      intro i hi
      exact (pool_read QUESTIONS i (hlt i hi)).2
    rw [this]
    exact hnd.map (fun a b h => toString_nat_injective h)
  · intro q hq
    obtain ⟨i, hi, rfl⟩ := List.mem_map.1 hq
    exact ⟨i, pool_read QUESTIONS i (hlt i hi)⟩

/-- Claim C1 at a catalog of three questions, `n = 2`. -/
theorem sampleQuestions_distinct_witness :
    (((sampleQuestions catalog3 2 zeroRng).1.length : Int) = 2 ∧
    (∀ q ∈ (sampleQuestions catalog3 2 zeroRng).1, q ∈ LOCAL_QUESTIONS catalog3) ∧
    ((sampleQuestions catalog3 2 zeroRng).1.map (fun q => q.id)).Nodup ∧
    (∀ q ∈ (sampleQuestions catalog3 2 zeroRng).1, ∃ i : Nat,
      (LOCAL_QUESTIONS catalog3)[i]? = some q ∧ q.id = toString i)) :=
  sampleQuestions_distinct catalog3 zeroRng 2 (by decide) (by decide)


/-! ## The non-repeat selector -/

theorem stateAfter_shift {σ : Type} (sampleFn : Int → σ → List Question × σ) (n : Int)
    (s : σ) (k : Nat) :
    stateAfter sampleFn n (sampleFn n s).2 k = stateAfter sampleFn n s (k + 1) := by
  induction k with
  | zero => rfl
  | succ k ih => simp only [stateAfter, ih]

theorem draw_shift {σ : Type} (sampleFn : Int → σ → List Question × σ) (n : Int)
    (s : σ) (k : Nat) :
    draw sampleFn n (sampleFn n s).2 k = draw sampleFn n s (k + 1) := by
  unfold draw
  rw [stateAfter_shift]

theorem loop_spec {σ : Type} (sampleFn : Int → σ → List Question × σ) (n : Int)
    (lastSetIds : Option (List String)) (m : Nat) : ∀ s : σ,
    ∃ k, k ≤ m ∧
      sampleNonRepeatingSetLoop sampleFn n lastSetIds m s =
        (draw sampleFn n s k, stateAfter sampleFn n s (k + 1)) ∧
      (∀ j, j < k → isSameSet (some (idsOf (draw sampleFn n s j))) lastSetIds = true) ∧
      (k < m → isSameSet (some (idsOf (draw sampleFn n s k))) lastSetIds = false) := by
  induction m with
  | zero =>
    intro s
    exact ⟨0, Nat.le_refl 0, rfl, fun j hj => absurd hj (Nat.not_lt_zero j),
      fun h => absurd h (Nat.lt_irrefl 0)⟩
  | succ m ih =>
    intro s
    by_cases h : isSameSet (some (idsOf (sampleFn n s).1)) lastSetIds = true
    · obtain ⟨k, hk, heq, hbefore, hat⟩ := ih (sampleFn n s).2
      refine ⟨k + 1, by omega, ?_, ?_, ?_⟩
      · have : sampleNonRepeatingSetLoop sampleFn n lastSetIds (m + 1) s =
            sampleNonRepeatingSetLoop sampleFn n lastSetIds m (sampleFn n s).2 := by
          simp only [sampleNonRepeatingSetLoop]
          unfold idsOf at h
          simp [h]
        rw [this, heq, draw_shift, stateAfter_shift]
      · intro j hj
        cases j with
        | zero => exact h
        | succ j =>
          rw [← draw_shift]
          exact hbefore j (by omega)
      · intro hlt
        rw [← draw_shift]
        exact hat (by omega)
    · have h1 : isSameSet (some (idsOf (sampleFn n s).1)) lastSetIds = false := by
        simpa using h
      refine ⟨0, Nat.zero_le _, ?_, fun j hj => absurd hj (Nat.not_lt_zero j), fun _ => h1⟩
      simp only [sampleNonRepeatingSetLoop]
      unfold idsOf at h1
      simp only [h1, Bool.not_false, if_true]
      rfl

/-- Claim C3: `sampleNonRepeatingSet` always returns, after `k + 1 ≤ 11` calls of the
sampler: its result is draw `k`, every earlier draw is set-equal to `lastSetIds`, and when
`k < 10` draw `k` is not (so the result is the first of the first ten draws that differs as
a set, otherwise the eleventh draw, accepted unconditionally). Hence if one of the first ten
draws differs from `lastSetIds` as a set, so does the result; and with `lastSetIds` absent
the result is the first draw. -/
theorem sampleNonRepeatingSet_bounded {σ : Type} (sampleFn : Int → σ → List Question × σ)
    (n : Int) (lastSetIds : Option (List String)) (s : σ) :
    (∃ k, k < 11 ∧
      sampleNonRepeatingSet sampleFn n lastSetIds s =
        (draw sampleFn n s k, stateAfter sampleFn n s (k + 1)) ∧
      (∀ j, j < k → isSameSet (some (idsOf (draw sampleFn n s j))) lastSetIds = true) ∧
      (k < 10 → isSameSet (some (idsOf (draw sampleFn n s k))) lastSetIds = false)) ∧
    ((∃ j, j < 10 ∧ isSameSet (some (idsOf (draw sampleFn n s j))) lastSetIds = false) →
      isSameSet (some (idsOf (sampleNonRepeatingSet sampleFn n lastSetIds s).1))
        lastSetIds = false) ∧
    (lastSetIds = none →
      sampleNonRepeatingSet sampleFn n lastSetIds s =
        (draw sampleFn n s 0, stateAfter sampleFn n s 1)) := by
  obtain ⟨k, hk, heq, hbefore, hat⟩ := loop_spec sampleFn n lastSetIds 10 s
  refine ⟨⟨k, by omega, heq, hbefore, hat⟩, ?_, ?_⟩
  · rintro ⟨j, hj, hdiff⟩
    have hk10 : k < 10 := by
      by_contra hge
      have := hbefore j (by omega)
      rw [hdiff] at this
      cases this
    have : (sampleNonRepeatingSet sampleFn n lastSetIds s).1 = draw sampleFn n s k :=
      congrArg Prod.fst heq
    rw [this]
    exact hat hk10
  · intro hnone
    subst hnone
    have hk0 : k = 0 := by
      by_contra hne
      have := hbefore 0 (by omega)
      cases h : idsOf (draw sampleFn n s 0) <;> simp [isSameSet] at this
    subst hk0
    exact heq

/-- Claim C3 on the three-question pool: the first draw differs from the last set. -/
theorem sampleNonRepeatingSet_bounded_witness :
    isSameSet (some (idsOf (sampleNonRepeatingSet (sampleQuestions catalog3) 2
      (some ["0", "1"]) zeroRng).1)) (some ["0", "1"]) = false :=
  (sampleNonRepeatingSet_bounded (sampleQuestions catalog3) 2 (some ["0", "1"]) zeroRng).2.1
    ⟨0, by decide, by decide⟩

/-- Claim C10 fails on the code: with a pool of two questions, `n = 2` and the last set
`["0", "1"]`, all ten attempts of `sampleNonRepeatingSet(sampleQuestions, ...)` collide, the
fallback draw is made (eleven calls of the sampler, one `Math.random()` each), and the set
it returns has the ids `["1", "0"]`: set-equal to the last set, differing from it in no id. -/
theorem fallback_repeats_last_set :
    (∀ j, j < 10 → isSameSet (some (idsOf (draw (sampleQuestions catalog2) 2 zeroRng j)))
      (some ["0", "1"]) = true) ∧
    (sampleNonRepeatingSet (sampleQuestions catalog2) 2 (some ["0", "1"]) zeroRng).2.calls = 11 ∧
    idsOf (sampleNonRepeatingSet (sampleQuestions catalog2) 2 (some ["0", "1"]) zeroRng).1 =
      ["1", "0"] ∧
    isSameSet (some (idsOf (sampleNonRepeatingSet (sampleQuestions catalog2) 2
      (some ["0", "1"]) zeroRng).1)) (some ["0", "1"]) = true ∧
    idDifferences (idsOf (sampleNonRepeatingSet (sampleQuestions catalog2) 2
      (some ["0", "1"]) zeroRng).1) ["0", "1"] = 0 := by
  refine ⟨?_, ?_, ?_, ?_, ?_⟩
  · decide
  · decide
  · decide
  · decide
  · decide


/-! ## The collections -/

theorem find?_map_keep {α : Type} (p : α → Bool) (f : α → α) (hf : ∀ x, p (f x) = p x) :
    ∀ l : List α, (l.map f).find? p = (l.find? p).map f := by
  intro l
  induction l with
  | nil => rfl
  | cons x xs ih =>
    simp only [List.map_cons, List.find?_cons, hf x]
    cases p x with
    | true => rfl
    | false => exact ih

theorem session_findOne_save (db : Db) (doc : GameSession) (id : Nat) :
    GameSession.findOne (GameSession.save db doc) id =
      (GameSession.findOne db id).map (fun d => if d._id == doc._id then doc else d) := by
  unfold GameSession.findOne GameSession.save
  apply find?_map_keep
  intro x
  by_cases h : x._id = doc._id
  · simp [h]
  · simp [h]

theorem session_findById_save (db : Db) (doc : GameSession) (gid : IdValue) :
    GameSession.findById (GameSession.save db doc) gid =
      (GameSession.findById db gid).map
        (fun found => found.map (fun d => if d._id == doc._id then doc else d)) := by
  cases gid with
  | missing => rfl
  | malformed raw => rfl
  | objectId oid =>
    simp only [GameSession.findById, Except.map]
    rw [session_findOne_save]

theorem user_findById_save (db : Db) (doc : User) (id : Nat) :
    User.findById (User.save db doc) id =
      (User.findById db id).map (fun u => if u._id == doc._id then doc else u) := by
  unfold User.findById User.save
  apply find?_map_keep
  intro x
  by_cases h : x._id = doc._id
  · simp [h]
  · simp [h]

/-- A lookup that finds a session was made with the ObjectId of that session. -/
theorem session_findById_id {db : Db} {gid : IdValue} {sess : GameSession}
    (h : GameSession.findById db gid = .ok (some sess)) : gid = .objectId sess._id := by
  cases gid with
  | missing => simp [GameSession.findById] at h
  | malformed raw => simp [GameSession.findById] at h
  | objectId oid =>
    simp only [GameSession.findById, Except.ok.injEq] at h
    have := List.find?_some h
    have e : sess._id = oid := by simpa using this
    rw [e]

theorem user_findById_id {db : Db} {id : Nat} {u : User}
    (h : User.findById db id = some u) : u._id = id := by
  have := List.find?_some h
  simpa using this

/-- The session `/api/game/finish` saves. -/
theorem gameFinish_eq (db : Db) (gid : IdValue) (now now2 : Int) (sess : GameSession)
    (hs : GameSession.findById db gid = .ok (some sess)) :
    gameFinish db gid now now2 =
      (.ok ⟨(sess.answers.filter (fun a => a.isCorrect)).length, sess.numQuestions⟩,
        match User.findById db sess.userId with
        | some user =>
          User.save (GameSession.save db { sess with
              score := some (sess.answers.filter (fun a => a.isCorrect)).length,
              finishedAt := some now, durationMs := some (now - sess.startedAt) })
            { user with recentPlayedSets :=
                (playedRecord sess now2 :: user.recentPlayedSets).take 5 }
        | none => GameSession.save db { sess with
              score := some (sess.answers.filter (fun a => a.isCorrect)).length,
              finishedAt := some now, durationMs := some (now - sess.startedAt) }) := by
  unfold gameFinish
  rw [hs]
  rfl

/-- A finish that finds no session leaves the database as it is. -/
theorem gameFinish_unchanged (db : Db) (gid : IdValue) (now now2 : Int)
    (hs : ∀ sess, GameSession.findById db gid ≠ .ok (some sess)) :
    (gameFinish db gid now now2).2 = db := by
  unfold gameFinish
  cases h : GameSession.findById db gid with
  | error e => rfl
  | ok found =>
    cases found with
    | none => rfl
    | some sess => exact absurd h (hs sess)

theorem gameFinish_session (db : Db) (gid : IdValue) (now now2 : Int) (sess : GameSession)
    (hs : GameSession.findById db gid = .ok (some sess)) (j : IdValue) :
    GameSession.findById (gameFinish db gid now now2).2 j =
      (GameSession.findById db j).map (fun found => found.map (fun d =>
          if d._id == sess._id then { sess with
              score := some (sess.answers.filter (fun a => a.isCorrect)).length,
              finishedAt := some now, durationMs := some (now - sess.startedAt) }
          else d)) := by
  rw [gameFinish_eq db gid now now2 sess hs]
  simp only
  cases User.findById db sess.userId with
  | none => exact session_findById_save _ _ _
  | some user => exact session_findById_save _ _ _

theorem gameFinish_user (db : Db) (gid : IdValue) (now now2 : Int) (sess : GameSession)
    (u : User) (hs : GameSession.findById db gid = .ok (some sess))
    (hu : User.findById db sess.userId = some u) :
    User.findById (gameFinish db gid now now2).2 sess.userId =
      some { u with recentPlayedSets := (playedRecord sess now2 :: u.recentPlayedSets).take 5 } := by
  rw [gameFinish_eq db gid now now2 sess hs]
  simp only [hu]
  rw [user_findById_save]
  have : User.findById (GameSession.save db { sess with
      score := some (sess.answers.filter (fun a => a.isCorrect)).length,
      finishedAt := some now, durationMs := some (now - sess.startedAt) }) sess.userId =
      some u := hu
  rw [this]
  simp

/-! ## Finish -/

theorem take_append_take {α : Type} (n : Nat) (A B : List α) :
    (A ++ B.take n).take n = (A ++ B).take n := by
  rw [List.take_append_eq_append_take, List.take_append_eq_append_take, List.take_take]
  congr 2
  omega

/-- After a finish, a session found before is found again, with the same owner, source and
question ids. -/
theorem gameFinish_keeps (db : Db) (gid : IdValue) (now now2 : Int) (sess : GameSession)
    (hs : GameSession.findById db gid = .ok (some sess)) (j : IdValue) (s1 : GameSession)
    (hs1 : GameSession.findById db j = .ok (some s1)) :
    ∃ s2, GameSession.findById (gameFinish db gid now now2).2 j = .ok (some s2) ∧
      s2.userId = s1.userId ∧ s2.source = s1.source ∧ s2.questionIds = s1.questionIds := by
  rw [gameFinish_session db gid now now2 sess hs, hs1]
  simp only [Except.map, Option.map_some']
  by_cases hid : s1._id = sess._id
  · have e1 : s1 = sess := by
      have a1 := session_findById_id hs1
      have a2 := session_findById_id hs
      rw [a1, hid, ← a2, hs] at hs1
      injection hs1 with hs1
      exact (Option.some.inj hs1).symm
    subst e1
    exact ⟨{ s1 with
      score := some (s1.answers.filter (fun a => a.isCorrect)).length,
      finishedAt := some now, durationMs := some (now - s1.startedAt) },
      by simp, rfl, rfl, rfl⟩
  · exact ⟨s1, by simp [hid], rfl, rfl, rfl⟩

theorem finishAll_history (uid : Nat) : ∀ (reqs : List (GameSession × Int × Int)) (db : Db)
    (u : User), User.findById db uid = some u → u.recentPlayedSets.length ≤ 5 →
    (∀ r ∈ reqs, ∃ s, GameSession.findById db (.objectId r.1._id) = .ok (some s) ∧
      s.userId = uid ∧ s.source = r.1.source ∧ s.questionIds = r.1.questionIds) →
    User.findById
        (finishAll db (reqs.map (fun r => (IdValue.objectId r.1._id, r.2.1, r.2.2)))) uid =
      some { u with recentPlayedSets :=
        ((reqs.reverse.map (fun r => playedRecord r.1 r.2.2)) ++ u.recentPlayedSets).take 5 } := by
  intro reqs
  induction reqs with
  | nil =>
    intro db u hu hlen _
    simp only [List.map_nil, finishAll, List.reverse_nil, List.nil_append]
    rw [hu, List.take_of_length_le hlen]
  | cons r rest ih =>
    intro db u hu hlen hall
    obtain ⟨s, hs, hsu, hsrc, hq⟩ := hall r (List.mem_cons_self _ _)
    have hu1 := gameFinish_user db (.objectId r.1._id) r.2.1 r.2.2 s u hs (hsu ▸ hu)
    rw [hsu] at hu1
    have hrec : playedRecord s r.2.2 = playedRecord r.1 r.2.2 := by
      simp only [playedRecord, hsrc, hq]
    rw [hrec] at hu1
    have hall1 : ∀ r1 ∈ rest, ∃ s1,
        GameSession.findById (gameFinish db (.objectId r.1._id) r.2.1 r.2.2).2
          (.objectId r1.1._id) = .ok (some s1) ∧
        s1.userId = uid ∧ s1.source = r1.1.source ∧ s1.questionIds = r1.1.questionIds := by
      intro r1 hr1
      obtain ⟨s1, hs1, h1, h2, h3⟩ := hall r1 (List.mem_cons_of_mem _ hr1)
      obtain ⟨s2, hs2, k1, k2, k3⟩ :=
        gameFinish_keeps db (.objectId r.1._id) r.2.1 r.2.2 s hs (.objectId r1.1._id) s1 hs1
      exact ⟨s2, hs2, k1.trans h1, k2.trans h2, k3.trans h3⟩
    have := ih (gameFinish db (.objectId r.1._id) r.2.1 r.2.2).2 _ hu1
      (by simp only [List.length_take]; omega) hall1
    simp only [List.map_cons, finishAll]
    rw [this]
    simp only [List.reverse_cons, List.map_append, List.map_cons, List.map_nil,
      List.append_assoc, List.singleton_append]
    rw [take_append_take]

/-- Claim C5: when the session exists and its owner exists, `finish` replaces the owner's
`recentPlayedSets` by the new record (the session's source and questionIds) put in front of
the old list and cut to its first 5 entries; the new list has at most 5 entries and is the
new record followed by the first 4 old ones, in their order; and after 5 more finishes of
sessions of that user (6 in a row) the list is exactly the records of those 5 most recent
finishes, most recent first. -/
theorem gameFinish_history (db : Db) (gid : IdValue) (now now2 : Int) (sess : GameSession)
    (u : User) (hs : GameSession.findById db gid = .ok (some sess))
    (hu : User.findById db sess.userId = some u) :
    User.findById (gameFinish db gid now now2).2 sess.userId =
      some { u with recentPlayedSets :=
        (playedRecord sess now2 :: u.recentPlayedSets).take 5 } ∧
    ((playedRecord sess now2 :: u.recentPlayedSets).take 5).length ≤ 5 ∧
    (playedRecord sess now2 :: u.recentPlayedSets).take 5 =
      playedRecord sess now2 :: u.recentPlayedSets.take 4 ∧
    ∀ more : List (GameSession × Int × Int), more.length = 5 →
      (∀ r ∈ more, GameSession.findById db (.objectId r.1._id) = .ok (some r.1) ∧
        r.1.userId = sess.userId) →
      User.findById
        (finishAll (gameFinish db gid now now2).2
          (more.map (fun r => (IdValue.objectId r.1._id, r.2.1, r.2.2))))
        sess.userId =
      some { u with recentPlayedSets := more.reverse.map (fun r => playedRecord r.1 r.2.2) } := by
  have h1 := gameFinish_user db gid now now2 sess u hs hu
  refine ⟨h1, by simp only [List.length_take]; omega, rfl, ?_⟩
  intro more hlen hall
  have hall1 : ∀ r ∈ more, ∃ s,
      GameSession.findById (gameFinish db gid now now2).2 (.objectId r.1._id) = .ok (some s) ∧
      s.userId = sess.userId ∧ s.source = r.1.source ∧ s.questionIds = r.1.questionIds := by
    intro r hr
    obtain ⟨hr1, hr2⟩ := hall r hr
    obtain ⟨s2, hs2, k1, k2, k3⟩ :=
      gameFinish_keeps db gid now now2 sess hs (.objectId r.1._id) r.1 hr1
    exact ⟨s2, hs2, k1.trans hr2, k2, k3⟩
  have := finishAll_history sess.userId more (gameFinish db gid now now2).2 _ h1
    (by simp only [List.length_take]; omega) hall1
  rw [this]
  simp only [Option.some.injEq]
  congr 1
  rw [List.take_append_eq_append_take, List.take_of_length_le (by simp [hlen])]
  simp [hlen]

/-- Claim C4: for an existing session, `finish` returns and stores as `score` the number
of the session's answers whose `isCorrect` is true; and finishing any session whose answers
are a permutation of these returns the same score. -/
theorem gameFinish_score (db : Db) (gid : IdValue) (now now2 : Int) (sess : GameSession)
    (hs : GameSession.findById db gid = .ok (some sess)) :
    (gameFinish db gid now now2).1 =
      .ok ⟨sess.answers.countP (fun a => a.isCorrect), sess.numQuestions⟩ ∧
    (GameSession.findById (gameFinish db gid now now2).2 gid).map
        (fun found => found.map (fun s => s.score)) =
      .ok (some (some (sess.answers.countP (fun a => a.isCorrect)))) ∧
    ∀ (db1 : Db) (gid1 : IdValue) (t t2 : Int) (sess1 : GameSession),
      GameSession.findById db1 gid1 = .ok (some sess1) → sess1.answers.Perm sess.answers →
      (gameFinish db1 gid1 t t2).1 =
        .ok ⟨sess.answers.countP (fun a => a.isCorrect), sess1.numQuestions⟩ := by
  refine ⟨?_, ?_, ?_⟩
  · rw [gameFinish_eq db gid now now2 sess hs, List.countP_eq_length_filter]
  · rw [gameFinish_session db gid now now2 sess hs, hs]
    simp only [Except.map, Option.map_some', beq_self_eq_true, if_true,
      List.countP_eq_length_filter]
  · intro db1 gid1 t t2 sess1 hs1 hperm
    rw [gameFinish_eq db1 gid1 t t2 sess1 hs1, ← hperm.countP_eq, List.countP_eq_length_filter]

/-- Claim C4 on the sample database: session 7 has one correct answer out of two. -/
theorem gameFinish_score_witness :
    (gameFinish dbA (.objectId 7) 3000 3001).1 = .ok ⟨1, 2⟩ ∧
    (GameSession.findById (gameFinish dbA (.objectId 7) 3000 3001).2 (.objectId 7)).map
        (fun found => found.map (fun s => s.score)) =
      .ok (some (some 1)) :=
  have h := gameFinish_score dbA (.objectId 7) 3000 3001 sessionA rfl
  ⟨h.1, h.2.1⟩

/-- Claim C5 on the sample database: session 7 is finished, then five more finishes. -/
theorem gameFinish_history_witness :
    User.findById (gameFinish dbA (.objectId 7) 1 2).2 1 =
      some { userA with recentPlayedSets := [playedRecord sessionA 2] } ∧
    User.findById
      (finishAll (gameFinish dbA (.objectId 7) 1 2).2
        [(.objectId 7, 10, 11), (.objectId 8, 20, 21), (.objectId 7, 30, 31),
         (.objectId 8, 40, 41), (.objectId 7, 50, 51)]) 1 =
      some { userA with recentPlayedSets :=
        [playedRecord sessionA 51, playedRecord sessionF 41, playedRecord sessionA 31,
         playedRecord sessionF 21, playedRecord sessionA 11] } :=
  have h := gameFinish_history dbA (.objectId 7) 1 2 sessionA userA rfl (by decide)
  ⟨h.1, h.2.2.2 [(sessionA, 10, 11), (sessionF, 20, 21), (sessionA, 30, 31),
      (sessionF, 40, 41), (sessionA, 50, 51)] (by decide)
      (by
        intro r hr
        simp only [List.mem_cons, List.mem_singleton, List.not_mem_nil, or_false] at hr
        rcases hr with h | h | h | h | h <;> subst h <;> exact ⟨rfl, rfl⟩)⟩

/-! ## Answer -/

theorem find?_of_nodup_map {α : Type} (f : α → String) (q : α) : ∀ l : List α,
    (l.map f).Nodup → q ∈ l → l.find? (fun x => f x == f q) = some q := by
  intro l
  induction l with
  | nil => intro _ h; cases h
  | cons x xs ih =>
    intro hnd hq
    rw [List.map_cons, List.nodup_cons] at hnd
    rw [List.find?_cons]
    by_cases hx : x = q
    · subst hx; simp
    · have hq1 : q ∈ xs := by
        rcases List.mem_cons.1 hq with h | h
        · exact absurd h.symm hx
        · exact h
      have hne : f x ≠ f q := fun e => hnd.1 (e ▸ List.mem_map_of_mem f hq1)
      have : (f x == f q) = false := by simpa using hne
      rw [this]
      exact ih hnd.2 hq1

theorem pool_ids (QUESTIONS : List RawQuestion) :
    (LOCAL_QUESTIONS QUESTIONS).map (fun q => q.id) =
      (List.range QUESTIONS.length).map (fun i : Nat => toString i) := by
  apply List.ext_getElem?
  intro i
  rw [List.getElem?_map, List.getElem?_map, pool_getElem?]
  by_cases hi : i < QUESTIONS.length
  · rw [List.getElem?_eq_getElem hi, List.getElem?_range hi]
    rfl
  · rw [List.getElem?_eq_none (by omega), List.getElem?_eq_none (by simp; omega)]
    rfl

theorem pool_ids_nodup (QUESTIONS : List RawQuestion) :
    ((LOCAL_QUESTIONS QUESTIONS).map (fun q => q.id)).Nodup := by
  rw [pool_ids]
  exact (List.nodup_range _).map (fun a b h => toString_nat_injective h)

theorem pool_find (QUESTIONS : List RawQuestion) (q : Question)
    (hq : q ∈ LOCAL_QUESTIONS QUESTIONS) :
    (LOCAL_QUESTIONS QUESTIONS).find? (fun x => x.id == q.id) = some q :=
  find?_of_nodup_map (fun x => x.id) q _ (pool_ids_nodup QUESTIONS) hq

theorem gameAnswer_eq (QUESTIONS : List RawQuestion) (db : Db) (gid : IdValue)
    (selectedAnswer : String) (sess : GameSession) (q : Question)
    (hs : GameSession.findById db gid = .ok (some sess)) (hq : q ∈ LOCAL_QUESTIONS QUESTIONS) :
    gameAnswer QUESTIONS db gid q.id selectedAnswer =
      (.ok (selectedAnswer == q.answer), GameSession.save db { sess with
        answers := sess.answers ++ [⟨q.id, q.answer, selectedAnswer, selectedAnswer == q.answer⟩] }) := by
  unfold gameAnswer
  rw [hs]
  simp only
  rw [pool_find QUESTIONS q hq]

/-- An answer that finds no session leaves the database as it is. -/
theorem gameAnswer_unchanged (QUESTIONS : List RawQuestion) (db : Db) (gid : IdValue)
    (questionId selectedAnswer : String)
    (hs : ∀ sess, GameSession.findById db gid ≠ .ok (some sess)) :
    (gameAnswer QUESTIONS db gid questionId selectedAnswer).2 = db := by
  unfold gameAnswer
  cases h : GameSession.findById db gid with
  | error e => rfl
  | ok found =>
    cases found with
    | none => rfl
    | some sess => exact absurd h (hs sess)

/-- A save of a session leaves the sessions of other ids as they are. -/
theorem session_findById_save_other (db : Db) (doc : GameSession) (j : IdValue)
    (hj : j ≠ .objectId doc._id) :
    GameSession.findById (GameSession.save db doc) j = GameSession.findById db j := by
  rw [session_findById_save]
  cases hj1 : GameSession.findById db j with
  | error e => rfl
  | ok found =>
    cases found with
    | none => rfl
    | some d =>
      have a1 := session_findById_id hj1
      have : d._id ≠ doc._id := fun e => hj (by rw [a1, e])
      simp [Except.map, this]

/-- Claim C6: for an existing session and a question `q` of the pool, `recordAnswer` with
`q.id` returns `isCorrect = (selectedAnswer == q.answer)` and stores the session with exactly
one answer appended at the end, carrying the given questionId and selectedAnswer, the
correctAnswer of the pool and that `isCorrect`; the earlier answers, the other fields of the
session, the other sessions and the users are unchanged. -/
theorem gameAnswer_appends (QUESTIONS : List RawQuestion) (db : Db) (gid : IdValue)
    (selectedAnswer : String) (sess : GameSession) (q : Question)
    (hs : GameSession.findById db gid = .ok (some sess)) (hq : q ∈ LOCAL_QUESTIONS QUESTIONS) :
    (gameAnswer QUESTIONS db gid q.id selectedAnswer).1 = .ok (selectedAnswer == q.answer) ∧
    GameSession.findById (gameAnswer QUESTIONS db gid q.id selectedAnswer).2 gid =
      .ok (some { sess with answers := sess.answers ++
        [{ questionId := q.id, correctAnswer := q.answer, selectedAnswer := selectedAnswer,
           isCorrect := selectedAnswer == q.answer }] }) ∧
    (∀ j, j ≠ gid → GameSession.findById (gameAnswer QUESTIONS db gid q.id selectedAnswer).2 j =
      GameSession.findById db j) ∧
    (gameAnswer QUESTIONS db gid q.id selectedAnswer).2.users = db.users := by
  rw [gameAnswer_eq QUESTIONS db gid selectedAnswer sess q hs hq]
  refine ⟨rfl, ?_, ?_, rfl⟩
  · rw [session_findById_save, hs]
    simp [Except.map]
  · intro j hj
    apply session_findById_save_other
    rw [← session_findById_id hs]
    exact hj

/-- Claim C6 on the sample database: a correct answer to question "2" in session 7. -/
theorem gameAnswer_appends_witness :
    (gameAnswer catalog3 dbA (.objectId 7) "2" "C").1 = .ok true ∧
    GameSession.findById (gameAnswer catalog3 dbA (.objectId 7) "2" "C").2 (.objectId 7) =
      .ok (some { sessionA with answers := sessionA.answers ++ [⟨"2", "C", "C", true⟩] }) :=
  have h := gameAnswer_appends catalog3 dbA (.objectId 7) "C" sessionA
    ⟨"2", "q2", [⟨"A", "a"⟩, ⟨"B", "b"⟩, ⟨"C", "c"⟩, ⟨"D", "d"⟩], "C"⟩ rfl (by decide)
  ⟨h.1, h.2.1⟩

/-- Claim C7 as stated fails: the session id "99" is not an ObjectId, so it resolves to no
stored session, yet `recordAnswer` does not signal NotFound (404): the lookup throws and the
response is a 500. -/
theorem gameAnswer_malformed_id_not_404 :
    (∀ sess, GameSession.findById dbA (.malformed "99") ≠ .ok (some sess)) ∧
    (gameAnswer catalog3 dbA (.malformed "99") "0" "A").1 =
      .error ⟨500, "Cast to ObjectId failed"⟩ ∧
    ¬ ∃ e : HttpError,
      (gameAnswer catalog3 dbA (.malformed "99") "0" "A").1 = .error e ∧ e.status = 404 := by
  refine ⟨?_, rfl, ?_⟩
  · intro sess h
    simp [GameSession.findById] at h
  · rintro ⟨e, he, h404⟩
    have h : (gameAnswer catalog3 dbA (.malformed "99") "0" "A").1 =
        .error ⟨500, "Cast to ObjectId failed"⟩ := rfl
    rw [h] at he
    injection he with he
    rw [← he] at h404
    exact absurd h404 (by decide)

/-- Claim C7, amended: `recordAnswer` answers 404 "session not found" when the session id
is missing or is an ObjectId that no stored session has, and 404 "question not found" when
the session exists and no pool question has the given id; in both cases, and whenever the
call answers an error, the database returned is the database given. -/
theorem gameAnswer_notFound (QUESTIONS : List RawQuestion) (db : Db) (gid : IdValue)
    (questionId selectedAnswer : String) :
    (gid = .missing ∨ (∃ oid, gid = .objectId oid ∧ ∀ s ∈ db.sessions, s._id ≠ oid) →
      gameAnswer QUESTIONS db gid questionId selectedAnswer =
        (.error ⟨404, "session not found"⟩, db)) ∧
    (∀ sess, GameSession.findById db gid = .ok (some sess) →
      (∀ q ∈ LOCAL_QUESTIONS QUESTIONS, q.id ≠ questionId) →
      gameAnswer QUESTIONS db gid questionId selectedAnswer =
        (.error ⟨404, "question not found"⟩, db)) ∧
    (∀ e, (gameAnswer QUESTIONS db gid questionId selectedAnswer).1 = .error e →
      (gameAnswer QUESTIONS db gid questionId selectedAnswer).2 = db) := by
  refine ⟨?_, ?_, ?_⟩
  · intro h
    have hnone : GameSession.findById db gid = .ok none := by
      rcases h with h | ⟨oid, h, hno⟩
      · rw [h]; rfl
      · rw [h]
        simp only [GameSession.findById, GameSession.findOne, Except.ok.injEq]
        rw [List.find?_eq_none]
        intro s hs
        simpa using hno s hs
    unfold gameAnswer
    rw [hnone]
  · intro sess hs hq
    have hnone : (LOCAL_QUESTIONS QUESTIONS).find? (fun q => q.id == questionId) = none := by
      rw [List.find?_eq_none]
      intro q hmem
      simpa using hq q hmem
    unfold gameAnswer
    rw [hs]
    simp only
    rw [hnone]
  · intro e he
    unfold gameAnswer at he ⊢
    cases h : GameSession.findById db gid with
    | error e1 => rfl
    | ok found =>
      cases found with
      | none => rfl
      | some sess =>
        rw [h] at he
        simp only at he ⊢
        cases hq : (LOCAL_QUESTIONS QUESTIONS).find? (fun q => q.id == questionId) with
        | none => rfl
        | some q =>
          rw [hq] at he
          simp at he

/-- Claim C7, amended, on the sample database: no session has the ObjectId 99, and no pool
question has the id "3". -/
theorem gameAnswer_notFound_witness :
    gameAnswer catalog3 dbA (.objectId 99) "0" "A" = (.error ⟨404, "session not found"⟩, dbA) ∧
    gameAnswer catalog3 dbA (.objectId 7) "3" "A" =
      (.error ⟨404, "question not found"⟩, dbA) ∧
    (gameAnswer catalog3 dbA (.malformed "99") "0" "A").2 = dbA :=
  ⟨(gameAnswer_notFound catalog3 dbA (.objectId 99) "0" "A").1
      (Or.inr ⟨99, rfl, by decide⟩),
   (gameAnswer_notFound catalog3 dbA (.objectId 7) "3" "A").2.1 sessionA rfl (by decide),
   (gameAnswer_notFound catalog3 dbA (.malformed "99") "0" "A").2.2 _ rfl⟩

/-! ## Start, and calls after finish -/

theorem ofString?_other (s : String) (h1 : s ≠ "local") (h2 : s ≠ "opentdb") :
    Source.ofString? s = none := by
  simp [Source.ofString?, h1, h2]

/-- Claim C8, amended: for an existing user, `start` with source 'opentdb' answers 501 and
leaves database and random source as they were; with any source other than 'local' it
answers an error and persists nothing; with source 'local' (also by default) it answers
the sampled questions and persists exactly one new session, appended to the collection,
whose questionIds are the ids of the returned questions in order, with no answers. -/
theorem gameStart_by_source (QUESTIONS : List RawQuestion) (db : Db) (rng : Rng) (uid : Nat)
    (numQuestionsField : Option Int) (sourceField : Option String) (newId : Nat) (now : Int)
    (user : User) (hu : User.findById db uid = some user) :
    (sourceField.getD "local" = "opentdb" →
      gameStart QUESTIONS db rng uid numQuestionsField sourceField newId now =
        (.error ⟨501, "OpenTDB not implemented yet"⟩, db, rng)) ∧
    (sourceField.getD "local" ≠ "local" →
      (∃ e, (gameStart QUESTIONS db rng uid numQuestionsField sourceField newId now).1 =
        .error e) ∧
      (gameStart QUESTIONS db rng uid numQuestionsField sourceField newId now).2.1 = db) ∧
    (sourceField.getD "local" = "local" →
      ∃ questions : List Question,
        (gameStart QUESTIONS db rng uid numQuestionsField sourceField newId now).1 =
          .ok ⟨newId, questions⟩ ∧
        (gameStart QUESTIONS db rng uid numQuestionsField sourceField newId now).2.1 =
          { db with sessions := db.sessions ++
            [{ _id := newId, userId := user._id, source := Source.local,
               questionIds := idsOf questions, answers := [], score := none,
               numQuestions := numQuestionsField.getD 10, startedAt := now,
               finishedAt := none, durationMs := none }] }) := by
  refine ⟨?_, ?_, ?_⟩
  · intro h
    unfold gameStart
    simp only [hu, h]
    rfl
  · intro h
    by_cases h2 : sourceField.getD "local" = "opentdb"
    · unfold gameStart
      simp only [hu, h2]
      exact ⟨⟨_, rfl⟩, rfl⟩
    · unfold gameStart
      simp only [hu, if_neg h, if_neg h2, GameSession.create,
        ofString?_other _ h h2]
      exact ⟨⟨_, rfl⟩, trivial⟩
  · intro h
    unfold gameStart
    simp only [hu, h, if_true, GameSession.create]
    exact ⟨_, rfl, rfl⟩

/-- Claim C8, amended, on the sample database: sources 'opentdb' and 'local'. -/
theorem gameStart_by_source_witness :
    gameStart catalog3 dbA zeroRng 1 (some 2) (some "opentdb") 9 5000 =
      (.error ⟨501, "OpenTDB not implemented yet"⟩, dbA, zeroRng) ∧
    (∃ questions : List Question,
      (gameStart catalog3 dbA zeroRng 1 (some 2) (some "local") 9 5000).1 =
        .ok ⟨9, questions⟩ ∧
      (gameStart catalog3 dbA zeroRng 1 (some 2) (some "local") 9 5000).2.1 =
        { dbA with sessions := dbA.sessions ++
          [{ _id := 9, userId := userA._id, source := Source.local,
             questionIds := idsOf questions, answers := [], score := none,
             numQuestions := 2, startedAt := 5000,
             finishedAt := none, durationMs := none }] }) :=
  ⟨(gameStart_by_source catalog3 dbA zeroRng 1 (some 2) (some "opentdb") 9 5000 userA
      (by decide)).1 (by decide),
   (gameStart_by_source catalog3 dbA zeroRng 1 (some 2) (some "local") 9 5000 userA
      (by decide)).2.2 (by decide)⟩

/-- Claim C8 as stated fails: for the existing user 1 and the source 'quiz', which is not
'local', `start` does not signal NotImplemented (501): the session document is rejected by
the enum of the schema and the response is a 500. -/
theorem gameStart_unknown_source_not_501 :
    User.findById dbA 1 = some userA ∧ "quiz" ≠ "local" ∧
    (gameStart catalog3 dbA zeroRng 1 (some 2) (some "quiz") 9 5000).1 =
      .error ⟨500, "GameSession validation failed"⟩ ∧
    ¬ ∃ e : HttpError,
      (gameStart catalog3 dbA zeroRng 1 (some 2) (some "quiz") 9 5000).1 = .error e ∧
      e.status = 501 := by
  refine ⟨by decide, by decide, rfl, ?_⟩
  rintro ⟨e, he, h501⟩
  have h : (gameStart catalog3 dbA zeroRng 1 (some 2) (some "quiz") 9 5000).1 =
      .error ⟨500, "GameSession validation failed"⟩ := rfl
  rw [h] at he
  injection he with he
  rw [← he] at h501
  exact absurd h501 (by decide)

/-- Claim C9 as stated fails: session 8 of the sample database is finished (score 0), yet a
later `recordAnswer` changes its answers, a later `finish` changes its finish timestamp,
and a `finish` after the extra answer sets its score to 1. -/
theorem finished_session_is_mutated :
    (GameSession.findById dbA (.objectId 8)).map (fun found => found.map (fun s => s.score)) =
      .ok (some (some 0)) ∧
    (GameSession.findById (gameAnswer catalog3 dbA (.objectId 8) "0" "A").2 (.objectId 8)).map
        (fun found => found.map (fun s => s.answers)) ≠
      (GameSession.findById dbA (.objectId 8)).map
        (fun found => found.map (fun s => s.answers)) ∧
    (GameSession.findById (gameFinish dbA (.objectId 8) 3000 3001).2 (.objectId 8)).map
        (fun found => found.map (fun s => s.finishedAt)) ≠
      (GameSession.findById dbA (.objectId 8)).map
        (fun found => found.map (fun s => s.finishedAt)) ∧
    (GameSession.findById
        (gameFinish (gameAnswer catalog3 dbA (.objectId 8) "0" "A").2 (.objectId 8)
          3000 3001).2 (.objectId 8)).map
      (fun found => found.map (fun s => s.score)) = .ok (some (some 1)) := by
  decide

/-- Claim C9, amended: for a stored session that has been finished (score set), a later
`recordAnswer` on it with the id of a pool question appends one answer and leaves score,
finish timestamp and duration unchanged; a later `finish` on it leaves the answers unchanged
and sets score to the count of correct answers, the finish timestamp to the time of the call
and the duration to that time minus the start; calls on another session id leave it
unchanged. -/
theorem finished_session_later_calls (QUESTIONS : List RawQuestion) (db : Db) (gid : IdValue)
    (sess : GameSession) (hs : GameSession.findById db gid = .ok (some sess))
    (_ : sess.score.isSome = true) :
    (∀ q ∈ LOCAL_QUESTIONS QUESTIONS, ∀ selectedAnswer : String,
      GameSession.findById (gameAnswer QUESTIONS db gid q.id selectedAnswer).2 gid =
        .ok (some { sess with answers := sess.answers ++
          [⟨q.id, q.answer, selectedAnswer, selectedAnswer == q.answer⟩] })) ∧
    (∀ now now2 : Int,
      GameSession.findById (gameFinish db gid now now2).2 gid =
        .ok (some { sess with
          score := some (sess.answers.countP (fun a => a.isCorrect)),
          finishedAt := some now, durationMs := some (now - sess.startedAt) })) ∧
    (∀ j, j ≠ gid →
      (∀ (questionId selectedAnswer : String),
        GameSession.findById (gameAnswer QUESTIONS db j questionId selectedAnswer).2 gid =
          .ok (some sess)) ∧
      (∀ now now2 : Int,
        GameSession.findById (gameFinish db j now now2).2 gid = .ok (some sess))) := by
  have hid := session_findById_id hs
  refine ⟨?_, ?_, ?_⟩
  · intro q hq selectedAnswer
    rw [gameAnswer_eq QUESTIONS db gid selectedAnswer sess q hs hq, session_findById_save, hs]
    simp [Except.map]
  · intro now now2
    rw [gameFinish_session db gid now now2 sess hs, hs]
    simp only [Except.map, Option.map_some', beq_self_eq_true, if_true,
      List.countP_eq_length_filter]
  · intro j hj
    constructor
    · intro questionId selectedAnswer
      by_cases hfound : ∃ sj, GameSession.findById db j = .ok (some sj)
      · obtain ⟨sj, hsj⟩ := hfound
        have hjid := session_findById_id hsj
        unfold gameAnswer
        rw [hsj]
        simp only
        cases (LOCAL_QUESTIONS QUESTIONS).find? (fun q => q.id == questionId) with
        | none => exact hs
        | some q =>
          simp only
          rw [session_findById_save_other _ _ _ (fun e => hj (by rw [hjid, ← e])), hs]
      · rw [gameAnswer_unchanged QUESTIONS db j questionId selectedAnswer
          (fun sj h => hfound ⟨sj, h⟩)]
        exact hs
    · intro now now2
      by_cases hfound : ∃ sj, GameSession.findById db j = .ok (some sj)
      · obtain ⟨sj, hsj⟩ := hfound
        have hjid := session_findById_id hsj
        rw [gameFinish_session db j now now2 sj hsj, hs]
        have : sess._id ≠ sj._id := fun e => hj (by rw [hjid, hid, e])
        simp [Except.map, this]
      · rw [gameFinish_unchanged db j now now2 (fun sj h => hfound ⟨sj, h⟩)]
        exact hs

/-- Claim C9, amended, on the finished session 8 of the sample database. -/
theorem finished_session_later_calls_witness :
    GameSession.findById (gameAnswer catalog3 dbA (.objectId 8) "2" "A").2 (.objectId 8) =
      .ok (some { sessionF with answers := sessionF.answers ++ [⟨"2", "C", "A", false⟩] }) ∧
    GameSession.findById (gameFinish dbA (.objectId 8) 3000 3001).2 (.objectId 8) =
      .ok (some { sessionF with
        score := some 0, finishedAt := some 3000, durationMs := some 2000 }) :=
  have h := finished_session_later_calls catalog3 dbA (.objectId 8) sessionF rfl (by decide)
  ⟨h.1 ⟨"2", "q2", [⟨"A", "a"⟩, ⟨"B", "b"⟩, ⟨"C", "c"⟩, ⟨"D", "d"⟩], "C"⟩ (by decide) "A",
   h.2.1 3000 3001⟩

end QuizApp
